import Mathlib

/-!
Shallow embedding of `python/ray/experimental/workflow/workflow_storage.py`.

The storage backend is modelled as an association list from hierarchical
keys (lists of path segments) to stored values.  Stored values are
modelled by `PyVal`, a small universe of Python values sufficient for the
JSON metadata documents and opaque binary payloads the module reads and
writes.  Backend reads of an absent key raise `KeyNotFoundError`
(here `Err.keyNotFound`); Python dictionary and type errors surface as
`Err.keyError` and `Err.typeError`.
-/

/-- A Python value, as far as this module observes it: metadata documents
are JSON-like dictionaries, counters are integers, pickled payloads are
opaque (represented here by whatever value was stored). -/
inductive PyVal where
  | none
  | bool (b : Bool)
  | int (n : Int)
  | str (s : String)
  | list (xs : List PyVal)
  | dict (entries : List (String × PyVal))

/-- Python truthiness, used by `meta.get(...) or ...` and by
`if meta else None` in the source. -/
def PyVal.truthy : PyVal → Bool
  | PyVal.none => false
  | PyVal.bool b => b
  | PyVal.int n => n != 0
  | PyVal.str s => s != ""
  | PyVal.list xs => !xs.isEmpty
  | PyVal.dict es => !es.isEmpty

/-- Constructor test corresponding to the Python `is None` check. -/
def PyVal.isNone : PyVal → Bool
  | PyVal.none => true
  | _ => false

/-- Python equality between a stored value and a string: a string equals
another value only when that value is the same string. -/
def PyVal.eqStr : PyVal → String → Bool
  | PyVal.str t, s => t == s
  | _, _ => false

/-- The failure kinds of the module: the classified storage errors from
`ray.experimental.workflow.storage` plus the Python-level exceptions the
module can raise (dictionary key errors, type errors, the assertion in
`save_step_output`, and the `ValueError` wrapper of
`get_entrypoint_step_id`, which carries the workflow id). -/
inductive Err where
  | keyNotFound
  | dataLoad
  | dataSave
  | keyError
  | typeError
  | assertFail
  | valueError (ctx : String)
  deriving DecidableEq

/-- Python dictionary lookup on an association list of entries. -/
def lookupEntries : List (String × PyVal) → String → Option PyVal
  | [], _ => Option.none
  | (k', v) :: rest, k => if k' = k then some v else lookupEntries rest k

/-- Python dictionary update (`d[k] = v`): replaces the value in place
when the key is present, otherwise appends the new entry. -/
def setEntries : List (String × PyVal) → String → PyVal → List (String × PyVal)
  | [], k, v => [(k, v)]
  | (k', v') :: rest, k, v =>
      if k' = k then (k, v) :: rest else (k', v') :: setEntries rest k v

/-- `d[k]`: raises `KeyError` when the key is absent, `TypeError` when the
value is not a dictionary. -/
def PyVal.getItem : PyVal → String → Except Err PyVal
  | PyVal.dict es, k =>
      match lookupEntries es k with
      | some v => Except.ok v
      | Option.none => Except.error Err.keyError
  | _, _ => Except.error Err.typeError

/-- `d.get(k)`: yields Python `None` when the key is absent. -/
def PyVal.getOpt : PyVal → String → Except Err PyVal
  | PyVal.dict es, k =>
      match lookupEntries es k with
      | some v => Except.ok v
      | Option.none => Except.ok PyVal.none
  | _, _ => Except.error Err.typeError

/-- `d.get(k, default)`: yields the default when the key is absent. -/
def PyVal.getOptD : PyVal → String → PyVal → Except Err PyVal
  | PyVal.dict es, k, dflt =>
      match lookupEntries es k with
      | some v => Except.ok v
      | Option.none => Except.ok dflt
  | _, _, _ => Except.error Err.typeError

/-- `d[k] = v` on a stored value: only dictionaries support item
assignment. -/
def PyVal.setItem : PyVal → String → PyVal → Except Err PyVal
  | PyVal.dict es, k, v => Except.ok (PyVal.dict (setEntries es k v))
  | _, _, _ => Except.error Err.typeError

/-- A hierarchical storage key: the list of path segments produced by
`Storage.make_key`. -/
abbrev Key := List String

/-- The storage contents: an association list from keys to stored
values. -/
abbrev Store := List (Key × PyVal)

/-- `Storage.make_key` joins its path segments with the path separator;
as with `os.path.join`, empty segments collapse and contribute nothing to
the resulting key.  The empty step id (the root workflow driver) and the
empty segment terminating a scan prefix rely on this. -/
def makeKey (paths : List String) : Key :=
  paths.filter (fun s => s != "")

/-- Backend lookup of an exact key. -/
def lookupStore : Store → Key → Option PyVal
  | [], _ => Option.none
  | (k', v) :: rest, k => if k' = k then some v else lookupStore rest k

/-- Backend write of an exact key (the backend is modelled as reliable,
so `_put` never raises `DataSaveError` here). -/
def putKey : Store → Key → PyVal → Store
  | [], k, v => [(k, v)]
  | (k', v') :: rest, k, v =>
      if k' = k then (k, v) :: rest else (k', v') :: putKey rest k v

/-- `WorkflowStorage._get`: raises `KeyNotFoundError` when the key has no
value. -/
def getKey (st : Store) (k : Key) : Except Err PyVal :=
  match lookupStore st k with
  | some v => Except.ok v
  | Option.none => Except.error Err.keyNotFound

/-- `Storage.scan_prefix`: the distinct immediate child names below a
prefix, read off the stored keys. -/
def childNames (st : Store) (pre : Key) : List String :=
  (st.filterMap (fun kv =>
    if (kv.fst).take pre.length = pre then ((kv.fst).drop pre.length).head?
    else Option.none)).dedup

/-! ### Key-space builder (the `_key_*` helpers) -/

def OBJECTS_DIR : String := "objects"
def STEPS_DIR : String := "steps"
def STEP_INPUTS_METADATA : String := "inputs.json"
def STEP_OUTPUTS_METADATA : String := "outputs.json"
def STEP_ARGS : String := "args.pkl"
def STEP_OUTPUT : String := "output.pkl"
def STEP_FUNC_BODY : String := "func_body.pkl"
def CLASS_BODY : String := "class_body.pkl"
def WORKFLOW_META : String := "workflow_meta.json"
def WORKFLOW_PROGRESS : String := "progress.json"
def DUPLICATE_NAME_COUNTER : String := "duplicate_name_counter"

def keyStepInputMetadata (wf sid : String) : Key :=
  makeKey [wf, STEPS_DIR, sid, STEP_INPUTS_METADATA]

def keyStepOutput (wf sid : String) : Key :=
  makeKey [wf, STEPS_DIR, sid, STEP_OUTPUT]

def keyStepOutputMetadata (wf sid : String) : Key :=
  makeKey [wf, STEPS_DIR, sid, STEP_OUTPUTS_METADATA]

def keyStepFunctionBody (wf sid : String) : Key :=
  makeKey [wf, STEPS_DIR, sid, STEP_FUNC_BODY]

def keyStepArgs (wf sid : String) : Key :=
  makeKey [wf, STEPS_DIR, sid, STEP_ARGS]

def keyStepPre (wf sid : String) : Key :=
  makeKey [wf, STEPS_DIR, sid, ""]

def keyNumStepsWithName (wf name : String) : Key :=
  makeKey [wf, DUPLICATE_NAME_COUNTER, name]

def keyWorkflowMetadata (wf : String) : Key :=
  makeKey [wf, WORKFLOW_META]

/-! ### Step inspection data (`StepInspectResult`, `StepStatus`) -/

/-- Modelled from the spec: the closed step-type enumeration carried in
step input metadata (`StepType` lives in `common.py`, which is not under
`src/`; the spec describes it as a closed tagged-variant enumeration with
an explicit unknown-value failure path). -/
inductive StepType where
  | FUNCTION
  | ACTOR_METHOD
  | READONLY_ACTOR_METHOD
  deriving DecidableEq

/-- Python `StepType[name]`: enumeration lookup by member name, raising
`KeyError` for any value outside the enumeration (including `None`). -/
def StepType.ofName : PyVal → Except Err StepType
  | PyVal.str "FUNCTION" => Except.ok StepType.FUNCTION
  | PyVal.str "ACTOR_METHOD" => Except.ok StepType.ACTOR_METHOD
  | PyVal.str "READONLY_ACTOR_METHOD" => Except.ok StepType.READONLY_ACTOR_METHOD
  | _ => Except.error Err.keyError

/-- Modelled from the spec: the enumerated workflow status set
(`WorkflowStatus` lives in `common.py`, which is not under `src/`; the
spec only requires an enumerated status set whose by-value construction
rejects unknown values). -/
inductive WorkflowStatus where
  | RUNNING
  | FINISHED
  | RESUMABLE
  | CANCELED
  deriving DecidableEq

/-- Python `WorkflowStatus(value)`: by-value construction, raising
`ValueError` for a value outside the enumeration. -/
def WorkflowStatus.ofValue : PyVal → Except Err WorkflowStatus
  | PyVal.str "RUNNING" => Except.ok WorkflowStatus.RUNNING
  | PyVal.str "FINISHED" => Except.ok WorkflowStatus.FINISHED
  | PyVal.str "RESUMABLE" => Except.ok WorkflowStatus.RESUMABLE
  | PyVal.str "CANCELED" => Except.ok WorkflowStatus.CANCELED
  | _ => Except.error (Err.valueError "not a valid WorkflowStatus")

/-- The `StepInspectResult` dataclass, with its field defaults.  Fields
filled from metadata documents keep the Python value type, since
`metadata.get(...)` can populate them with `None` regardless of the
type annotations. -/
structure StepInspectResult where
  output_object_valid : Bool := false
  output_step_id : PyVal := PyVal.none
  args_valid : Bool := false
  func_body_valid : Bool := false
  object_refs : PyVal := PyVal.none
  workflows : PyVal := PyVal.none
  workflow_refs : PyVal := PyVal.none
  max_retries : PyVal := PyVal.int 1
  catch_exceptions : PyVal := PyVal.bool false
  ray_options : PyVal := PyVal.none
  step_type : Option StepType := Option.none

/-- `StepInspectResult.is_recoverable`, with Python truthiness for the
`output_step_id` operand and `is not None` tests on the dependency
lists (the code does not consult `workflow_refs`). -/
def StepInspectResult.is_recoverable (r : StepInspectResult) : Bool :=
  r.output_object_valid || r.output_step_id.truthy ||
    (r.args_valid && !r.object_refs.isNone && !r.workflows.isNone
      && r.func_body_valid)

/-! ### Output resolver -/

/-- `WorkflowStorage._update_dynamic_output`: reads the outer-most step
output metadata; when the candidate differs from both the stored
`output_step_id` and the stored `dynamic_output_step_id`, rewrites the
metadata with `dynamic_output_step_id` set to the candidate, otherwise
performs no write. -/
def updateDynamicOutput (st : Store) (wf outer cand : String) :
    Except Err Store :=
  match getKey st (keyStepOutputMetadata wf outer) with
  | Except.error e => Except.error e
  | Except.ok m =>
    match m.getItem "output_step_id" with
    | Except.error e => Except.error e
    | Except.ok osid =>
      match m.getOpt "dynamic_output_step_id" with
      | Except.error e => Except.error e
      | Except.ok dyn =>
        if !PyVal.eqStr osid cand && !PyVal.eqStr dyn cand then
          match m.setItem "dynamic_output_step_id" (PyVal.str cand) with
          | Except.error e => Except.error e
          | Except.ok m' =>
              Except.ok (putKey st (keyStepOutputMetadata wf outer) m')
        else Except.ok st

/-- `WorkflowStorage._locate_output_step_id`: the stored
`dynamic_output_step_id` when truthy (`meta.get(...) or ...`), otherwise
the stored `output_step_id` (raising `KeyError` when that is absent). -/
def locateOutputStepId (st : Store) (wf sid : String) : Except Err PyVal :=
  match getKey st (keyStepOutputMetadata wf sid) with
  | Except.error e => Except.error e
  | Except.ok m =>
    match m.getOpt "dynamic_output_step_id" with
    | Except.error e => Except.error e
    | Except.ok dyn =>
        if dyn.truthy then Except.ok dyn else m.getItem "output_step_id"

/-- `WorkflowStorage.get_entrypoint_step_id`: resolves the output pointer
of the empty (root-driver) step id, wrapping any failure in a
`ValueError` that carries the workflow id. -/
def getEntrypointStepId (st : Store) (wf : String) : Except Err PyVal :=
  match locateOutputStepId st wf "" with
  | Except.ok v => Except.ok v
  | Except.error _ => Except.error (Err.valueError wf)

/-! ### Step inspector -/

/-- The body of the `try` block of `WorkflowStorage._inspect_step`: load
the input metadata document and build the full verdict from it,
propagating any failure (absent metadata, missing dictionary fields, an
unknown step-type tag). -/
def inputMetadataVerdict (st : Store) (wf sid : String)
    (argsE funcE : Bool) : Except Err StepInspectResult :=
  match getKey st (keyStepInputMetadata wf sid) with
  | Except.error e => Except.error e
  | Except.ok m =>
    match m.getItem "object_refs" with
    | Except.error e => Except.error e
    | Except.ok orefs =>
      match m.getItem "workflows" with
      | Except.error e => Except.error e
      | Except.ok wfs =>
        match m.getItem "workflow_refs" with
        | Except.error e => Except.error e
        | Except.ok wrefs =>
          match m.getOpt "max_retries" with
          | Except.error e => Except.error e
          | Except.ok mr =>
            match m.getOpt "catch_exceptions" with
            | Except.error e => Except.error e
            | Except.ok ce =>
              match m.getOptD "ray_options" (PyVal.dict []) with
              | Except.error e => Except.error e
              | Except.ok ro =>
                match m.getOpt "step_type" with
                | Except.error e => Except.error e
                | Except.ok tname =>
                  match StepType.ofName tname with
                  | Except.error e => Except.error e
                  | Except.ok stp =>
                      Except.ok
                        { args_valid := argsE
                          func_body_valid := funcE
                          object_refs := orefs
                          workflows := wfs
                          workflow_refs := wrefs
                          max_retries := mr
                          catch_exceptions := ce
                          ray_options := ro
                          step_type := some stp }

/-- The input-metadata stage of `_inspect_step`: the `except Exception`
handler degrades any failure to the reduced verdict carrying only the
existence flags for the arguments and function-body artifacts. -/
def readInputMetadata (st : Store) (wf sid : String)
    (argsE funcE : Bool) : StepInspectResult :=
  match inputMetadataVerdict st wf sid argsE funcE with
  | Except.ok r => r
  | Except.error _ => { args_valid := argsE, func_body_valid := funcE }

/-- `WorkflowStorage._inspect_step`: scan the artifact names below the
step prefix, then classify with the fixed precedence of the source. -/
def inspectStep (st : Store) (wf sid : String) :
    Except Err StepInspectResult :=
  let items := childNames st (keyStepPre wf sid)
  let outputObjectExists := items.contains STEP_OUTPUT
  let outputMetadataExists := items.contains STEP_OUTPUTS_METADATA
  let argsExists := items.contains STEP_ARGS
  let funcBodyExists := items.contains STEP_FUNC_BODY
  if outputObjectExists then
    Except.ok { output_object_valid := true }
  else if outputMetadataExists then
    (locateOutputStepId st wf sid).map
      (fun p => { output_step_id := p })
  else
    Except.ok (readInputMetadata st wf sid argsExists funcBodyExists)

/-! ### Step artifact manager -/

/-- `WorkflowStorage.gen_step_id`: read-modify-write of the
duplicate-name counter record; an absent record initializes the counter
to `0` and returns `0`, otherwise the stored counter is incremented and
the new value returned (only `KeyNotFoundError` is caught; a non-integer
record raises `TypeError`). -/
def genStepId (st : Store) (wf name : String) : Except Err (Int × Store) :=
  match getKey st (keyNumStepsWithName wf name) with
  | Except.ok (PyVal.int n) =>
      Except.ok (n + 1,
        putKey st (keyNumStepsWithName wf name) (PyVal.int (n + 1)))
  | Except.ok _ => Except.error Err.typeError
  | Except.error Err.keyNotFound =>
      Except.ok (0, putKey st (keyNumStepsWithName wf name) (PyVal.int 0))
  | Except.error e => Except.error e

/-- `k` sequential calls of `gen_step_id` for the same name, collecting
the returned counters in order. -/
def genSteps (st : Store) (wf name : String) :
    Nat → Except Err (List Int × Store)
  | 0 => Except.ok ([], st)
  | Nat.succ k =>
    match genStepId st wf name with
    | Except.error e => Except.error e
    | Except.ok (i, st1) =>
      match genSteps st1 wf name k with
      | Except.error e => Except.error e
      | Except.ok (rest, st2) => Except.ok (i :: rest, st2)

/-- The return value handed to `save_step_output`: a pending nested
workflow (carrying its root step id), a `ray.ObjectRef` handle resolving
to a value, or a plain value. -/
inductive RetVal where
  | workflow (stepId : String)
  | objectRef (v : PyVal)
  | value (v : PyVal)

/-- The trailing part of `save_step_output`: the dynamic-output shortcut
update runs exactly when `outer_most_step_id` is neither `None` nor the
empty root-driver sentinel. -/
def runShortcut (st : Store) (wf : String) (outer : Option String)
    (dynId : String) : Except Err Store :=
  match outer with
  | Option.none => Except.ok st
  | some o => if o = "" then Except.ok st else updateDynamicOutput st wf o dynId

/-- `WorkflowStorage.save_step_output`: a nested-workflow return persists
output metadata pointing at the nested root (after the assertion that the
step does not point at itself) and forwards the nested root id; any other
return persists the resolved concrete value as the direct output and
forwards the step id itself.  The concurrent `asyncio.gather` is modelled
by running the primary write before the shortcut update, matching the
scheduling order of the created tasks. -/
def saveStepOutput (st : Store) (wf step : String) (ret : RetVal)
    (outer : Option String) : Except Err Store :=
  match ret with
  | RetVal.workflow w =>
      if step = w then Except.error Err.assertFail
      else
        runShortcut
          (putKey st (keyStepOutputMetadata wf step)
            (PyVal.dict [("output_step_id", PyVal.str w)]))
          wf outer w
  | RetVal.objectRef v =>
      runShortcut (putKey st (keyStepOutput wf step) v) wf outer step
  | RetVal.value v =>
      runShortcut (putKey st (keyStepOutput wf step) v) wf outer step

/-! ### Workflow registry -/

/-- `WorkflowStorage._list_workflow`: scan the top-level namespace for
workflow ids, load every `workflow_meta.json` through `_get` (which
raises `KeyNotFoundError` for an absent record) under `asyncio.gather`
(which propagates the first failure), then build the status entries,
with `None` for a falsy metadata document. -/
def listWorkflow (st : Store) :
    Except Err (List (String × Option WorkflowStatus)) :=
  let wfIds := childNames st (makeKey [""])
  match wfIds.mapM (fun wid => getKey st (makeKey [wid, WORKFLOW_META])) with
  | Except.error e => Except.error e
  | Except.ok metas =>
      (wfIds.zip metas).mapM (fun p =>
        if p.snd.truthy then
          match p.snd.getItem "status" with
          | Except.error e => Except.error e
          | Except.ok s =>
            match WorkflowStatus.ofValue s with
            | Except.error e => Except.error e
            | Except.ok ws => Except.ok (p.fst, some ws)
        else Except.ok (p.fst, Option.none))

/-! ### Basic facts about the store and the dictionary operations -/

theorem lookupStore_putKey (st : Store) (k : Key) (v : PyVal) (q : Key) :
    lookupStore (putKey st k v) q = if q = k then some v else lookupStore st q := by
  induction st with
  | nil =>
      simp only [putKey, lookupStore]
      by_cases h : k = q
      · subst h
        simp
      · rw [if_neg h, if_neg (fun h2 => h h2.symm)]
  | cons kv rest ih =>
      obtain ⟨k', v'⟩ := kv
      simp only [putKey]
      by_cases h1 : k' = k
      · rw [if_pos h1]
        subst h1
        simp only [lookupStore]
        by_cases h2 : k' = q
        · subst h2
          simp
        · rw [if_neg h2, if_neg (fun h3 => h2 h3.symm), if_neg h2]
      · rw [if_neg h1]
        simp only [lookupStore]
        by_cases h2 : k' = q
        · subst h2
          rw [if_pos rfl, if_neg h1, if_pos rfl]
        · rw [if_neg h2, if_neg h2, ih]

theorem putKey_putKey (st : Store) (k : Key) (a b : PyVal) :
    putKey (putKey st k a) k b = putKey st k b := by
  induction st with
  | nil => simp [putKey]
  | cons kv rest ih =>
      obtain ⟨k', v'⟩ := kv
      by_cases h : k' = k <;> simp [putKey, h, ih]

theorem lookupEntries_setEntries (es : List (String × PyVal)) (k : String)
    (v : PyVal) (q : String) :
    lookupEntries (setEntries es k v) q =
      if q = k then some v else lookupEntries es q := by
  induction es with
  | nil =>
      simp only [setEntries, lookupEntries]
      by_cases h : k = q
      · subst h
        simp
      · rw [if_neg h, if_neg (fun h2 => h h2.symm)]
  | cons kv rest ih =>
      obtain ⟨k', v'⟩ := kv
      simp only [setEntries]
      by_cases h1 : k' = k
      · rw [if_pos h1]
        subst h1
        simp only [lookupEntries]
        by_cases h2 : k' = q
        · subst h2
          simp
        · rw [if_neg h2, if_neg (fun h3 => h2 h3.symm), if_neg h2]
      · rw [if_neg h1]
        simp only [lookupEntries]
        by_cases h2 : k' = q
        · subst h2
          rw [if_pos rfl, if_neg h1, if_pos rfl]
        · rw [if_neg h2, if_neg h2, ih]

theorem lookupStore_isSome_iff (st : Store) (k : Key) :
    (lookupStore st k).isSome = true ↔ ∃ v, (k, v) ∈ st := by
  induction st with
  | nil => simp [lookupStore]
  | cons kv rest ih =>
      obtain ⟨k', v'⟩ := kv
      by_cases h : k' = k
      · subst h
        simp [lookupStore]
      · rw [lookupStore, if_neg h, ih]
        constructor
        · rintro ⟨v, hv⟩
          exact ⟨v, List.mem_cons_of_mem _ hv⟩
        · rintro ⟨v, hv⟩
          rcases List.mem_cons.mp hv with heq | hmem
          · rw [Prod.mk.injEq] at heq
            exact absurd heq.1.symm h
          · exact ⟨v, hmem⟩

theorem mem_childNames_iff (st : Store) (pre : Key) (n : String)
    (hd : ∀ kv ∈ st, (kv.fst).take pre.length = pre →
      (kv.fst).length ≤ pre.length + 1) :
    n ∈ childNames st pre ↔ (lookupStore st (pre ++ [n])).isSome = true := by
  unfold childNames
  rw [List.mem_dedup, List.mem_filterMap, lookupStore_isSome_iff]
  constructor
  · rintro ⟨kv, hkv, hf⟩
    by_cases htake : (kv.fst).take pre.length = pre
    · rw [if_pos htake] at hf
      have hlen : (kv.fst).length ≤ pre.length + 1 := hd kv hkv htake
      have hlen2 : pre.length ≤ (kv.fst).length := by
        have h := congrArg List.length htake
        simp at h
        omega
      have hdropne : (kv.fst).drop pre.length ≠ [] := by
        intro hnil
        rw [hnil] at hf
        simp at hf
      have hdl : ((kv.fst).drop pre.length).length = 1 := by
        have h := List.length_drop pre.length kv.fst
        have hpos : 0 < ((kv.fst).drop pre.length).length :=
          List.length_pos.mpr hdropne
        omega
      have hdrop : (kv.fst).drop pre.length = [n] := by
        cases hds : (kv.fst).drop pre.length with
        | nil => exact absurd hds hdropne
        | cons x xs =>
            rw [hds] at hf hdl
            simp at hf hdl
            rw [hf, hdl]
      have hkey : kv.fst = pre ++ [n] := by
        have h := List.take_append_drop pre.length kv.fst
        rw [htake, hdrop] at h
        exact h.symm
      exact ⟨kv.snd, by rw [← hkey]; exact hkv⟩
    · rw [if_neg htake] at hf
      simp at hf
  · rintro ⟨v, hv⟩
    refine ⟨(pre ++ [n], v), hv, ?_⟩
    have htake : (pre ++ [n]).take pre.length = pre := List.take_left pre [n]
    have hdrop : (pre ++ [n]).drop pre.length = [n] := List.drop_left pre [n]
    simp only [htake, hdrop, if_pos rfl]
    rfl

theorem contains_childNames_eq (st : Store) (pre : Key) (n : String)
    (hd : ∀ kv ∈ st, (kv.fst).take pre.length = pre →
      (kv.fst).length ≤ pre.length + 1) :
    (childNames st pre).contains n = (lookupStore st (pre ++ [n])).isSome := by
  have h := mem_childNames_iff st pre n hd
  by_cases hm : n ∈ childNames st pre
  · have hc : (childNames st pre).contains n = true := List.elem_iff.mpr hm
    rw [hc, h.mp hm]
  · have hc : (childNames st pre).contains n = false := by
      cases hcc : (childNames st pre).contains n with
      | false => rfl
      | true => exact absurd (List.elem_iff.mp hcc) hm
    have hs : (lookupStore st (pre ++ [n])).isSome = false := by
      cases hss : (lookupStore st (pre ++ [n])).isSome with
      | false => rfl
      | true => exact absurd (h.mpr hss) hm
    rw [hc, hs]

theorem makeKey_all_ne (l : List String) (h : ∀ s ∈ l, s ≠ "") :
    makeKey l = l :=
  List.filter_eq_self.mpr (fun s hs => bne_iff_ne.mpr (h s hs))

theorem makeKey_step (wf sid a : String) (hwf : wf ≠ "") (hsid : sid ≠ "")
    (ha : a ≠ "") : makeKey [wf, STEPS_DIR, sid, a] = [wf, STEPS_DIR, sid, a] := by
  apply makeKey_all_ne
  intro s hs
  simp at hs
  rcases hs with h | h | h | h <;> subst h
  · exact hwf
  · exact (by decide : STEPS_DIR ≠ "")
  · exact hsid
  · exact ha

theorem keyStepPre_eq (wf sid : String) (hwf : wf ≠ "") (hsid : sid ≠ "") :
    keyStepPre wf sid = [wf, STEPS_DIR, sid] := by
  unfold keyStepPre makeKey
  have h1 : (wf != "") = true := bne_iff_ne.mpr hwf
  have h2 : (STEPS_DIR != "") = true := by decide
  have h3 : (sid != "") = true := bne_iff_ne.mpr hsid
  simp [List.filter, h1, h2, h3]

theorem keyStepOutput_eq (wf sid : String) (hwf : wf ≠ "") (hsid : sid ≠ "") :
    keyStepOutput wf sid = [wf, STEPS_DIR, sid, STEP_OUTPUT] :=
  makeKey_step wf sid STEP_OUTPUT hwf hsid (by decide)

theorem keyStepOutputMetadata_eq (wf sid : String) (hwf : wf ≠ "")
    (hsid : sid ≠ "") :
    keyStepOutputMetadata wf sid = [wf, STEPS_DIR, sid, STEP_OUTPUTS_METADATA] :=
  makeKey_step wf sid STEP_OUTPUTS_METADATA hwf hsid (by decide)

theorem keyStepArgs_eq (wf sid : String) (hwf : wf ≠ "") (hsid : sid ≠ "") :
    keyStepArgs wf sid = [wf, STEPS_DIR, sid, STEP_ARGS] :=
  makeKey_step wf sid STEP_ARGS hwf hsid (by decide)

theorem keyStepFunctionBody_eq (wf sid : String) (hwf : wf ≠ "")
    (hsid : sid ≠ "") :
    keyStepFunctionBody wf sid = [wf, STEPS_DIR, sid, STEP_FUNC_BODY] :=
  makeKey_step wf sid STEP_FUNC_BODY hwf hsid (by decide)

theorem keyStepInputMetadata_eq (wf sid : String) (hwf : wf ≠ "")
    (hsid : sid ≠ "") :
    keyStepInputMetadata wf sid = [wf, STEPS_DIR, sid, STEP_INPUTS_METADATA] :=
  makeKey_step wf sid STEP_INPUTS_METADATA hwf hsid (by decide)

theorem getItem_ok_inv (m : PyVal) (k : String) (v : PyVal)
    (h : m.getItem k = Except.ok v) :
    ∃ es, m = PyVal.dict es ∧ lookupEntries es k = some v := by
  cases m <;> simp [PyVal.getItem] at h
  case dict es =>
    refine ⟨es, rfl, ?_⟩
    cases hle : lookupEntries es k with
    | none => rw [hle] at h; simp at h
    | some w => rw [hle] at h; simp at h; rw [h]

theorem getOpt_dict (es : List (String × PyVal)) (k : String) :
    (PyVal.dict es).getOpt k = Except.ok ((lookupEntries es k).getD PyVal.none) := by
  cases hle : lookupEntries es k <;> simp [PyVal.getOpt, hle]

theorem updateDynamicOutput_spec (st : Store) (wf outer cand : String)
    (es : List (String × PyVal)) (osid : PyVal)
    (hm : getKey st (keyStepOutputMetadata wf outer) = Except.ok (PyVal.dict es))
    (ho : lookupEntries es "output_step_id" = some osid) :
    updateDynamicOutput st wf outer cand =
      if !PyVal.eqStr osid cand &&
          !PyVal.eqStr ((lookupEntries es "dynamic_output_step_id").getD PyVal.none) cand then
        Except.ok (putKey st (keyStepOutputMetadata wf outer)
          (PyVal.dict (setEntries es "dynamic_output_step_id" (PyVal.str cand))))
      else Except.ok st := by
  have hgi : (PyVal.dict es).getItem "output_step_id" = Except.ok osid := by
    simp [PyVal.getItem, ho]
  unfold updateDynamicOutput
  rw [hm]
  dsimp only
  rw [hgi, getOpt_dict]
  dsimp only
  by_cases hcond : (!PyVal.eqStr osid cand &&
      !PyVal.eqStr ((lookupEntries es "dynamic_output_step_id").getD PyVal.none) cand) = true
  · rw [if_pos hcond, if_pos hcond]
    simp [PyVal.setItem]
  · rw [if_neg hcond, if_neg hcond]

theorem updateDynamicOutput_ok_inv (st : Store) (wf outer cand : String)
    (st1 : Store) (h : updateDynamicOutput st wf outer cand = Except.ok st1) :
    ∃ es osid,
      getKey st (keyStepOutputMetadata wf outer) = Except.ok (PyVal.dict es) ∧
      lookupEntries es "output_step_id" = some osid ∧
      ((!PyVal.eqStr osid cand &&
          !PyVal.eqStr ((lookupEntries es "dynamic_output_step_id").getD PyVal.none) cand) = true ∧
        st1 = putKey st (keyStepOutputMetadata wf outer)
          (PyVal.dict (setEntries es "dynamic_output_step_id" (PyVal.str cand))) ∨
       (!PyVal.eqStr osid cand &&
          !PyVal.eqStr ((lookupEntries es "dynamic_output_step_id").getD PyVal.none) cand) = false ∧
        st1 = st) := by
  cases hg : getKey st (keyStepOutputMetadata wf outer) with
  | error e =>
      unfold updateDynamicOutput at h
      rw [hg] at h
      simp at h
  | ok m =>
    cases hi : m.getItem "output_step_id" with
    | error e =>
        unfold updateDynamicOutput at h
        rw [hg] at h
        dsimp only at h
        rw [hi] at h
        simp at h
    | ok osid =>
      obtain ⟨es, hm, hle⟩ := getItem_ok_inv m "output_step_id" osid hi
      subst hm
      unfold updateDynamicOutput at h
      rw [hg] at h
      dsimp only at h
      rw [hi, getOpt_dict] at h
      dsimp only at h
      refine ⟨es, osid, rfl, hle, ?_⟩
      by_cases hcond : (!PyVal.eqStr osid cand &&
          !PyVal.eqStr ((lookupEntries es "dynamic_output_step_id").getD PyVal.none) cand) = true
      · rw [if_pos hcond] at h
        simp [PyVal.setItem] at h
        exact Or.inl ⟨hcond, h.symm⟩
      · rw [if_neg hcond] at h
        simp at h
        exact Or.inr ⟨Bool.eq_false_iff.mpr hcond, h.symm⟩

/-- C6: update_dynamic_output is idempotent, and a candidate equal to the
current output_step_id or the current dynamic_output_step_id issues no
write. -/
theorem c6_update_dynamic_output_idempotent (st st1 : Store)
    (wf outer cand : String)
    (h1 : updateDynamicOutput st wf outer cand = Except.ok st1) :
    updateDynamicOutput st1 wf outer cand = Except.ok st1 ∧
    (∀ m osid dyn,
      getKey st (keyStepOutputMetadata wf outer) = Except.ok m →
      m.getItem "output_step_id" = Except.ok osid →
      m.getOpt "dynamic_output_step_id" = Except.ok dyn →
      (osid = PyVal.str cand ∨ dyn = PyVal.str cand) → st1 = st) := by
  obtain ⟨es, osid, hg, hle, hcase⟩ :=
    updateDynamicOutput_ok_inv st wf outer cand st1 h1
  constructor
  · rcases hcase with ⟨hcond, hst⟩ | ⟨hcond, hst⟩
    · subst hst
      have hg1 : getKey (putKey st (keyStepOutputMetadata wf outer)
          (PyVal.dict (setEntries es "dynamic_output_step_id" (PyVal.str cand))))
            (keyStepOutputMetadata wf outer) =
          Except.ok (PyVal.dict (setEntries es "dynamic_output_step_id"
            (PyVal.str cand))) := by
        unfold getKey
        rw [lookupStore_putKey, if_pos rfl]
      have hle1 : lookupEntries (setEntries es "dynamic_output_step_id"
          (PyVal.str cand)) "output_step_id" = some osid := by
        rw [lookupEntries_setEntries, if_neg (by decide)]
        exact hle
      rw [updateDynamicOutput_spec _ wf outer cand _ osid hg1 hle1]
      rw [lookupEntries_setEntries, if_pos rfl]
      simp [PyVal.eqStr]
    · subst hst
      exact h1
  · intro m osid2 dyn hg2 hi2 ho2 heq
    rw [hg] at hg2
    have hm : m = PyVal.dict es := Except.ok.inj hg2.symm
    subst hm
    have hi' : (PyVal.dict es).getItem "output_step_id" = Except.ok osid := by
      simp [PyVal.getItem, hle]
    have hosid : osid2 = osid := (Except.ok.inj (hi'.symm.trans hi2)).symm
    subst hosid
    rw [getOpt_dict] at ho2
    have hdyn : dyn = (lookupEntries es "dynamic_output_step_id").getD PyVal.none :=
      (Except.ok.inj ho2).symm
    rcases hcase with ⟨hcond, hst⟩ | ⟨hcond, hst⟩
    · exfalso
      simp only [Bool.and_eq_true, Bool.not_eq_true'] at hcond
      rcases heq with he | he
      · rw [he] at hcond
        simp [PyVal.eqStr] at hcond
      · rw [← hdyn] at hcond
        rw [he] at hcond
        simp [PyVal.eqStr] at hcond
    · exact hst

def metaStoreA : Store :=
  [(["w", "steps", "o", "outputs.json"],
    PyVal.dict [("output_step_id", PyVal.str "a")])]

def metaStoreA1 : Store :=
  [(["w", "steps", "o", "outputs.json"],
    PyVal.dict [("output_step_id", PyVal.str "a"),
                ("dynamic_output_step_id", PyVal.str "b")])]

/-- C6 witness: a concrete first advance, then the theorem applied to it. -/
theorem c6_update_dynamic_output_idempotent_witness :
    updateDynamicOutput metaStoreA1 "w" "o" "b" = Except.ok metaStoreA1 ∧
    metaStoreA1 = metaStoreA1 :=
  ⟨(c6_update_dynamic_output_idempotent metaStoreA metaStoreA1 "w" "o" "b" rfl).1,
   (c6_update_dynamic_output_idempotent metaStoreA1 metaStoreA1 "w" "o" "b" rfl).2
     (PyVal.dict [("output_step_id", PyVal.str "a"),
                  ("dynamic_output_step_id", PyVal.str "b")])
     (PyVal.str "a") (PyVal.str "b") rfl rfl rfl (Or.inr rfl)⟩

/-- C10: a successful update_dynamic_output call preserves the stored
output_step_id field, writes at most the outer-most step output-metadata
key, and writes nothing at all when the no-op branch is taken. -/
theorem c10_update_dynamic_output_frame (st st1 : Store)
    (wf outer cand : String)
    (h : updateDynamicOutput st wf outer cand = Except.ok st1) :
    (∀ k, k ≠ keyStepOutputMetadata wf outer →
      lookupStore st1 k = lookupStore st k) ∧
    (∀ m osid,
      getKey st (keyStepOutputMetadata wf outer) = Except.ok m →
      m.getItem "output_step_id" = Except.ok osid →
      ∃ m1, getKey st1 (keyStepOutputMetadata wf outer) = Except.ok m1 ∧
        m1.getItem "output_step_id" = Except.ok osid) ∧
    (∀ m osid dyn,
      getKey st (keyStepOutputMetadata wf outer) = Except.ok m →
      m.getItem "output_step_id" = Except.ok osid →
      m.getOpt "dynamic_output_step_id" = Except.ok dyn →
      (!PyVal.eqStr osid cand && !PyVal.eqStr dyn cand) = false → st1 = st) := by
  obtain ⟨es, osid, hg, hle, hcase⟩ :=
    updateDynamicOutput_ok_inv st wf outer cand st1 h
  refine ⟨?_, ?_, ?_⟩
  · intro k hk
    rcases hcase with ⟨hcond, hst⟩ | ⟨hcond, hst⟩
    · subst hst
      rw [lookupStore_putKey, if_neg hk]
    · subst hst
      rfl
  · intro m osid2 hg2 hi2
    rw [hg] at hg2
    have hm : m = PyVal.dict es := Except.ok.inj hg2.symm
    subst hm
    have hi' : (PyVal.dict es).getItem "output_step_id" = Except.ok osid := by
      simp [PyVal.getItem, hle]
    have hosid : osid2 = osid := (Except.ok.inj (hi'.symm.trans hi2)).symm
    subst hosid
    rcases hcase with ⟨hcond, hst⟩ | ⟨hcond, hst⟩
    · subst hst
      refine ⟨PyVal.dict (setEntries es "dynamic_output_step_id" (PyVal.str cand)),
        ?_, ?_⟩
      · unfold getKey
        rw [lookupStore_putKey, if_pos rfl]
      · simp [PyVal.getItem, lookupEntries_setEntries, hle]
    · subst hst
      exact ⟨PyVal.dict es, hg, hi'⟩
  · intro m osid2 dyn hg2 hi2 ho2 hfalse
    rw [hg] at hg2
    have hm : m = PyVal.dict es := Except.ok.inj hg2.symm
    subst hm
    have hi' : (PyVal.dict es).getItem "output_step_id" = Except.ok osid := by
      simp [PyVal.getItem, hle]
    have hosid : osid2 = osid := (Except.ok.inj (hi'.symm.trans hi2)).symm
    subst hosid
    rw [getOpt_dict] at ho2
    have hdyn : dyn = (lookupEntries es "dynamic_output_step_id").getD PyVal.none :=
      (Except.ok.inj ho2).symm
    rcases hcase with ⟨hcond, hst⟩ | ⟨hcond, hst⟩
    · exfalso
      rw [← hdyn] at hcond
      rw [hcond] at hfalse
      exact absurd hfalse (by simp)
    · exact hst

/-- C10 witness: the theorem applied to a concrete advancing call and to
a concrete no-op call. -/
theorem c10_update_dynamic_output_frame_witness :
    lookupStore metaStoreA1 ["x"] = lookupStore metaStoreA ["x"] ∧
    (∃ m1, getKey metaStoreA1 (keyStepOutputMetadata "w" "o") = Except.ok m1 ∧
      m1.getItem "output_step_id" = Except.ok (PyVal.str "a")) ∧
    metaStoreA1 = metaStoreA1 :=
  ⟨(c10_update_dynamic_output_frame metaStoreA metaStoreA1 "w" "o" "b" rfl).1
     ["x"] (by decide),
   (c10_update_dynamic_output_frame metaStoreA metaStoreA1 "w" "o" "b" rfl).2.1
     (PyVal.dict [("output_step_id", PyVal.str "a")]) (PyVal.str "a") rfl rfl,
   (c10_update_dynamic_output_frame metaStoreA1 metaStoreA1 "w" "o" "b" rfl).2.2
     (PyVal.dict [("output_step_id", PyVal.str "a"),
                  ("dynamic_output_step_id", PyVal.str "b")])
     (PyVal.str "a") (PyVal.str "b") rfl rfl rfl rfl⟩

/-- C3 (amended): once set and truthy, update_dynamic_output keeps the
dynamic_output_step_id truthy, and only ever moves it to the candidate,
which then differs from the previous value. -/
theorem c3_update_never_clears_dynamic_output (st st1 : Store)
    (wf outer cand : String) (m d : PyVal)
    (hcand : cand ≠ "")
    (h : updateDynamicOutput st wf outer cand = Except.ok st1)
    (hg : getKey st (keyStepOutputMetadata wf outer) = Except.ok m)
    (hd : m.getOpt "dynamic_output_step_id" = Except.ok d)
    (hdt : d.truthy = true) :
    ∃ m1 d1, getKey st1 (keyStepOutputMetadata wf outer) = Except.ok m1 ∧
      m1.getOpt "dynamic_output_step_id" = Except.ok d1 ∧
      d1.truthy = true ∧
      (st1 = st ∧ d1 = d ∨ d1 = PyVal.str cand ∧ d1 ≠ d) := by
  obtain ⟨es, osid, hg', hle, hcase⟩ :=
    updateDynamicOutput_ok_inv st wf outer cand st1 h
  rw [hg'] at hg
  have hm : m = PyVal.dict es := Except.ok.inj hg.symm
  subst hm
  rw [getOpt_dict] at hd
  have hdv : d = (lookupEntries es "dynamic_output_step_id").getD PyVal.none :=
    (Except.ok.inj hd).symm
  rcases hcase with ⟨hcond, hst⟩ | ⟨hcond, hst⟩
  · subst hst
    refine ⟨PyVal.dict (setEntries es "dynamic_output_step_id" (PyVal.str cand)),
      PyVal.str cand, ?_, ?_, ?_, ?_⟩
    · unfold getKey
      rw [lookupStore_putKey, if_pos rfl]
    · rw [getOpt_dict, lookupEntries_setEntries, if_pos rfl]
      rfl
    · simp [PyVal.truthy]
      exact hcand
    · refine Or.inr ⟨rfl, ?_⟩
      intro hcd
      simp only [Bool.and_eq_true, Bool.not_eq_true'] at hcond
      rw [← hdv] at hcond
      rw [← hcd] at hcond
      simp [PyVal.eqStr] at hcond
  · subst hst
    exact ⟨PyVal.dict es, d, hg', by rw [getOpt_dict, ← hdv], hdt,
      Or.inl ⟨rfl, rfl⟩⟩

def metaStoreB : Store :=
  [(["w", "steps", "o", "outputs.json"],
    PyVal.dict [("output_step_id", PyVal.str "a"),
                ("dynamic_output_step_id", PyVal.str "b")])]

def metaStoreB1 : Store :=
  [(["w", "steps", "o", "outputs.json"],
    PyVal.dict [("output_step_id", PyVal.str "a"),
                ("dynamic_output_step_id", PyVal.str "c")])]

/-- C3 amended-theorem witness: a concrete advance of a set pointer. -/
theorem c3_update_never_clears_dynamic_output_witness :
    ∃ m1 d1, getKey metaStoreB1 (keyStepOutputMetadata "w" "o") = Except.ok m1 ∧
      m1.getOpt "dynamic_output_step_id" = Except.ok d1 ∧
      d1.truthy = true ∧
      (metaStoreB1 = metaStoreB ∧ d1 = PyVal.str "b" ∨
        d1 = PyVal.str "c" ∧ d1 ≠ PyVal.str "b") :=
  c3_update_never_clears_dynamic_output metaStoreB metaStoreB1 "w" "o" "c"
    (PyVal.dict [("output_step_id", PyVal.str "a"),
                 ("dynamic_output_step_id", PyVal.str "b")])
    (PyVal.str "b") (by decide) rfl rfl rfl rfl

theorem genStepId_present (st : Store) (wf name : String) (n : Int)
    (h : lookupStore st (keyNumStepsWithName wf name) = some (PyVal.int n)) :
    genStepId st wf name = Except.ok (n + 1,
      putKey st (keyNumStepsWithName wf name) (PyVal.int (n + 1))) := by
  have hg : getKey st (keyNumStepsWithName wf name) =
      Except.ok (PyVal.int n) := by
    unfold getKey
    rw [h]
  unfold genStepId
  rw [hg]

theorem genStepId_absent (st : Store) (wf name : String)
    (h : lookupStore st (keyNumStepsWithName wf name) = Option.none) :
    genStepId st wf name = Except.ok (0,
      putKey st (keyNumStepsWithName wf name) (PyVal.int 0)) := by
  have hg : getKey st (keyNumStepsWithName wf name) =
      Except.error Err.keyNotFound := by
    unfold getKey
    rw [h]
  unfold genStepId
  rw [hg]

theorem genSteps_from (wf name : String) (k : Nat) :
    ∀ (st : Store) (n : Int),
      genSteps (putKey st (keyNumStepsWithName wf name) (PyVal.int n))
          wf name k =
        Except.ok ((List.range k).map (fun i => n + 1 + Int.ofNat i),
          putKey st (keyNumStepsWithName wf name) (PyVal.int (n + (k : Int)))) := by
  induction k with
  | zero =>
      intro st n
      simp [genSteps]
  | succ k ih =>
      intro st n
      have hl : lookupStore
          (putKey st (keyNumStepsWithName wf name) (PyVal.int n))
          (keyNumStepsWithName wf name) = some (PyVal.int n) := by
        rw [lookupStore_putKey, if_pos rfl]
      rw [genSteps, genStepId_present _ wf name n hl]
      dsimp only
      rw [putKey_putKey, ih st (n + 1)]
      dsimp only
      have hlist : (n + 1) :: (List.range k).map (fun i => n + 1 + 1 + Int.ofNat i) =
          (List.range (k + 1)).map (fun i => n + 1 + Int.ofNat i) := by
        rw [List.range_succ_eq_map, List.map_cons, List.map_map]
        have hf : ((fun i => n + 1 + Int.ofNat i) ∘ Nat.succ) =
            (fun i => n + 1 + 1 + Int.ofNat i) := by
          funext i
          simp only [Function.comp, Nat.succ_eq_add_one,
            Int.ofNat_eq_natCast]
          push_cast
          ring
        rw [hf]
        simp
      have hint : n + 1 + (k : Int) = n + ((k + 1 : Nat) : Int) := by
        push_cast
        ring
      rw [hlist, hint]

/-- C7: from an absent counter record, k sequential gen_step_id calls
return 0, 1, ..., k-1 in order, leaving the stored counter at k-1. -/
theorem c7_gen_step_id_sequence (st : Store) (wf name : String) (k : Nat)
    (h0 : lookupStore st (keyNumStepsWithName wf name) = Option.none)
    (hk : 1 ≤ k) :
    genSteps st wf name k =
      Except.ok ((List.range k).map (fun i => Int.ofNat i),
        putKey st (keyNumStepsWithName wf name)
          (PyVal.int ((k : Int) - 1))) := by
  obtain ⟨j, rfl⟩ : ∃ j, k = j + 1 := ⟨k - 1, by omega⟩
  rw [genSteps, genStepId_absent st wf name h0]
  dsimp only
  rw [genSteps_from wf name j st 0]
  dsimp only
  have hlist : (0 : Int) :: (List.range j).map (fun i => 0 + 1 + Int.ofNat i) =
      (List.range (j + 1)).map (fun i => Int.ofNat i) := by
    rw [List.range_succ_eq_map, List.map_cons, List.map_map]
    have hf : ((fun i => Int.ofNat i) ∘ Nat.succ) =
        (fun i => 0 + 1 + Int.ofNat i) := by
      funext i
      simp only [Function.comp, Nat.succ_eq_add_one,
        Int.ofNat_eq_natCast]
      push_cast
      ring
    rw [hf]
    simp
  have hint : (0 : Int) + (j : Int) = ((j + 1 : Nat) : Int) - 1 := by
    push_cast
    ring
  rw [hlist, hint]

/-- C7 witness: three sequential calls on an empty store return 0, 1, 2. -/
theorem c7_gen_step_id_sequence_witness :
    genSteps ([] : Store) "w" "n" 3 =
      Except.ok ((List.range 3).map (fun i => Int.ofNat i),
        putKey ([] : Store) (keyNumStepsWithName "w" "n")
          (PyVal.int ((3 : Int) - 1))) :=
  c7_gen_step_id_sequence [] "w" "n" 3 rfl (by decide)

/-- A store holding one workflow that has step data but no
workflow_meta.json record, and a second workflow with a valid record. -/
def listingStore : Store :=
  [(["w1", "steps", "s1", "output.pkl"], PyVal.str "v"),
   (["w2", "workflow_meta.json"],
    PyVal.dict [("status", PyVal.str "RUNNING")])]

/-- C1: evaluating list_workflow at the failing input: the top-level scan
returns both workflow ids, but the metadata load of the first workflow
raises KeyNotFoundError and the whole listing aborts with it instead of
producing an unknown-status placeholder entry. -/
theorem c1_list_workflow_aborts_on_missing_meta :
    childNames listingStore (makeKey [""]) = ["w1", "w2"] ∧
    listWorkflow listingStore = Except.error Err.keyNotFound :=
  ⟨rfl, rfl⟩

/-- A step with input metadata carrying an unknown step-type tag, plus
arguments and function-body artifacts, and no output artifacts. -/
def unknownTagStore : Store :=
  [(["w", "steps", "s", "inputs.json"],
    PyVal.dict [("object_refs", PyVal.list []), ("workflows", PyVal.list []),
                ("workflow_refs", PyVal.list []),
                ("step_type", PyVal.str "BOGUS")]),
   (["w", "steps", "s", "args.pkl"], PyVal.str "argsblob"),
   (["w", "steps", "s", "func_body.pkl"], PyVal.str "funcblob")]

/-- C2 counterexample: with no output artifact, no output metadata, and
input metadata whose step-type tag is outside the enumeration,
inspect_step does not fail: it returns the reduced verdict. -/
theorem c2_unknown_step_type_returns_verdict :
    StepType.ofName (PyVal.str "BOGUS") = Except.error Err.keyError ∧
    inspectStep unknownTagStore "w" "s" =
      Except.ok { args_valid := true, func_body_valid := true } :=
  ⟨rfl, rfl⟩

/-- A step whose output metadata already carries a set
dynamic_output_step_id. -/
def savedPointerStore : Store :=
  [(["w", "steps", "s", "outputs.json"],
    PyVal.dict [("output_step_id", PyVal.str "a"),
                ("dynamic_output_step_id", PyVal.str "b")])]

/-- C3 counterexample: save_step_output on a nested-workflow return
rewrites the step output metadata wholesale; the previously set
dynamic_output_step_id "b" is removed by the write. -/
theorem c3_save_step_output_clears_dynamic_pointer :
    ((getKey savedPointerStore (keyStepOutputMetadata "w" "s")).bind
      (fun m => m.getOpt "dynamic_output_step_id")) =
        Except.ok (PyVal.str "b") ∧
    saveStepOutput savedPointerStore "w" "s" (RetVal.workflow "c")
        Option.none =
      Except.ok [(["w", "steps", "s", "outputs.json"],
        PyVal.dict [("output_step_id", PyVal.str "c")])] ∧
    ((getKey [(["w", "steps", "s", "outputs.json"],
        PyVal.dict [("output_step_id", PyVal.str "c")])]
          (keyStepOutputMetadata "w" "s")).bind
      (fun m => m.getOpt "dynamic_output_step_id")) = Except.ok PyVal.none :=
  ⟨rfl, rfl, rfl⟩

theorem locate_keyNotFound (st : Store) (wf sid : String)
    (h : getKey st (keyStepOutputMetadata wf sid) = Except.error Err.keyNotFound) :
    locateOutputStepId st wf sid = Except.error Err.keyNotFound := by
  unfold locateOutputStepId
  rw [h]

/-- C8: locate_output_step_id returns the stored dynamic_output_step_id
when it is set (truthy), otherwise the stored output_step_id, and fails
with KeyNotFoundError when the step has no output metadata;
get_entrypoint_step_id resolves the empty root-driver id and, when the
root has no output metadata, fails with a ValueError carrying the
workflow id. -/
theorem c8_locate_and_entrypoint (st : Store) (wf sid : String) :
    (∀ m d, getKey st (keyStepOutputMetadata wf sid) = Except.ok m →
      m.getOpt "dynamic_output_step_id" = Except.ok d → d.truthy = true →
      locateOutputStepId st wf sid = Except.ok d) ∧
    (∀ m d o, getKey st (keyStepOutputMetadata wf sid) = Except.ok m →
      m.getOpt "dynamic_output_step_id" = Except.ok d → d.truthy = false →
      m.getItem "output_step_id" = Except.ok o →
      locateOutputStepId st wf sid = Except.ok o) ∧
    (getKey st (keyStepOutputMetadata wf sid) = Except.error Err.keyNotFound →
      locateOutputStepId st wf sid = Except.error Err.keyNotFound) ∧
    (getKey st (keyStepOutputMetadata wf "") = Except.error Err.keyNotFound →
      getEntrypointStepId st wf = Except.error (Err.valueError wf)) := by
  refine ⟨?_, ?_, ?_, ?_⟩
  · intro m d hg hd ht
    unfold locateOutputStepId
    rw [hg]
    dsimp only
    rw [hd]
    dsimp only
    rw [ht]
    rfl
  · intro m d o hg hd ht ho
    unfold locateOutputStepId
    rw [hg]
    dsimp only
    rw [hd]
    dsimp only
    rw [ht]
    exact ho
  · exact locate_keyNotFound st wf sid
  · intro h
    unfold getEntrypointStepId
    rw [locate_keyNotFound st wf "" h]

/-- A store exercising all branches of C8: step s has a truthy dynamic
pointer, step t a falsy one, step u no output metadata, and the root
driver has no output metadata. -/
def locateStore : Store :=
  [(["w", "steps", "s", "outputs.json"],
    PyVal.dict [("output_step_id", PyVal.str "a"),
                ("dynamic_output_step_id", PyVal.str "d")]),
   (["w", "steps", "t", "outputs.json"],
    PyVal.dict [("output_step_id", PyVal.str "o"),
                ("dynamic_output_step_id", PyVal.str "")])]

/-- C8 witness: the theorem applied at concrete steps for each branch. -/
theorem c8_locate_and_entrypoint_witness :
    locateOutputStepId locateStore "w" "s" = Except.ok (PyVal.str "d") ∧
    locateOutputStepId locateStore "w" "t" = Except.ok (PyVal.str "o") ∧
    locateOutputStepId locateStore "w" "u" = Except.error Err.keyNotFound ∧
    getEntrypointStepId locateStore "w" = Except.error (Err.valueError "w") :=
  ⟨(c8_locate_and_entrypoint locateStore "w" "s").1
     (PyVal.dict [("output_step_id", PyVal.str "a"),
                  ("dynamic_output_step_id", PyVal.str "d")])
     (PyVal.str "d") rfl rfl rfl,
   (c8_locate_and_entrypoint locateStore "w" "t").2.1
     (PyVal.dict [("output_step_id", PyVal.str "o"),
                  ("dynamic_output_step_id", PyVal.str "")])
     (PyVal.str "") (PyVal.str "o") rfl rfl rfl rfl,
   (c8_locate_and_entrypoint locateStore "w" "u").2.2.1 rfl,
   (c8_locate_and_entrypoint locateStore "w" "s").2.2.2 rfl⟩

/-- The step directory of (wf, sid) holds only artifact files: every
stored key below the step prefix is exactly one segment deep, as the
documented key layout guarantees. -/
def stepDirFlat (st : Store) (wf sid : String) : Prop :=
  ∀ kv ∈ st, (kv.fst).take 3 = [wf, STEPS_DIR, sid] → (kv.fst).length ≤ 4

/-- The four-way step classification as the specification words it:
a present concrete output artifact is directly satisfied; otherwise
present output metadata forwards through locate_output_step_id;
otherwise the verdict is input-based, from the input metadata and the
existence of the arguments and function-body artifacts. -/
def inspectStepSpec (st : Store) (wf sid : String) :
    Except Err StepInspectResult :=
  if (lookupStore st (keyStepOutput wf sid)).isSome then
    Except.ok { output_object_valid := true }
  else if (lookupStore st (keyStepOutputMetadata wf sid)).isSome then
    (locateOutputStepId st wf sid).map (fun p => { output_step_id := p })
  else
    Except.ok (readInputMetadata st wf sid
      (lookupStore st (keyStepArgs wf sid)).isSome
      (lookupStore st (keyStepFunctionBody wf sid)).isSome)

/-- C4: inspect_step realizes exactly the fixed precedence of the
specification, for every store whose step directory follows the
documented flat artifact layout. -/
theorem c4_inspect_step_precedence (st : Store) (wf sid : String)
    (hwf : wf ≠ "") (hsid : sid ≠ "") (hflat : stepDirFlat st wf sid) :
    inspectStep st wf sid = inspectStepSpec st wf sid := by
  have hpre : keyStepPre wf sid = [wf, STEPS_DIR, sid] :=
    keyStepPre_eq wf sid hwf hsid
  have hd : ∀ kv ∈ st,
      (kv.fst).take ([wf, STEPS_DIR, sid] : Key).length = [wf, STEPS_DIR, sid] →
      (kv.fst).length ≤ ([wf, STEPS_DIR, sid] : Key).length + 1 := hflat
  have hout : (childNames st (keyStepPre wf sid)).contains STEP_OUTPUT =
      (lookupStore st (keyStepOutput wf sid)).isSome := by
    rw [hpre, keyStepOutput_eq wf sid hwf hsid]
    exact contains_childNames_eq st [wf, STEPS_DIR, sid] STEP_OUTPUT hd
  have houtmeta : (childNames st (keyStepPre wf sid)).contains
        STEP_OUTPUTS_METADATA =
      (lookupStore st (keyStepOutputMetadata wf sid)).isSome := by
    rw [hpre, keyStepOutputMetadata_eq wf sid hwf hsid]
    exact contains_childNames_eq st [wf, STEPS_DIR, sid] STEP_OUTPUTS_METADATA hd
  have hargs : (childNames st (keyStepPre wf sid)).contains STEP_ARGS =
      (lookupStore st (keyStepArgs wf sid)).isSome := by
    rw [hpre, keyStepArgs_eq wf sid hwf hsid]
    exact contains_childNames_eq st [wf, STEPS_DIR, sid] STEP_ARGS hd
  have hfunc : (childNames st (keyStepPre wf sid)).contains STEP_FUNC_BODY =
      (lookupStore st (keyStepFunctionBody wf sid)).isSome := by
    rw [hpre, keyStepFunctionBody_eq wf sid hwf hsid]
    exact contains_childNames_eq st [wf, STEPS_DIR, sid] STEP_FUNC_BODY hd
  unfold inspectStep inspectStepSpec
  dsimp only
  rw [hout, houtmeta, hargs, hfunc]

/-- A concrete store with both a concrete output artifact and output
metadata for the same step: precedence picks the concrete output. -/
def precedenceStore : Store :=
  [(["w", "steps", "s", "output.pkl"], PyVal.str "v"),
   (["w", "steps", "s", "outputs.json"],
    PyVal.dict [("output_step_id", PyVal.str "a")])]

/-- C4 witness: the theorem applied at a concrete store, where both
sides evaluate to the directly-satisfied verdict. -/
theorem c4_inspect_step_precedence_witness :
    inspectStep precedenceStore "w" "s" = inspectStepSpec precedenceStore "w" "s" ∧
    inspectStep precedenceStore "w" "s" =
      Except.ok { output_object_valid := true } :=
  ⟨c4_inspect_step_precedence precedenceStore "w" "s" (by decide) (by decide)
     (by unfold stepDirFlat; decide), rfl⟩

/-- The recoverability condition exactly as the claim words it: directly
satisfied, or forwarded (an output_step_id is set), or arguments and
function body present with all three dependency lists known (object
references, workflow references, dynamic workflow references). -/
def recoverableClaim (r : StepInspectResult) : Prop :=
  r.output_object_valid = true ∨ r.output_step_id.isNone = false ∨
    (r.args_valid = true ∧ r.func_body_valid = true ∧
      r.object_refs.isNone = false ∧ r.workflows.isNone = false ∧
      r.workflow_refs.isNone = false)

/-- A verdict whose dynamic workflow reference list is unknown while the
other two dependency lists are known. -/
def verdictNoWorkflowRefs : StepInspectResult :=
  { args_valid := true
    func_body_valid := true
    object_refs := PyVal.list []
    workflows := PyVal.list [] }

/-- A verdict forwarded to the empty-string pointer. -/
def verdictEmptyPointer : StepInspectResult :=
  { output_step_id := PyVal.str "" }

/-- C5 counterexample: is_recoverable does not consult workflow_refs, so
it accepts a verdict the claim rejects; and it uses Python truthiness on
output_step_id, so it rejects an empty-string forwarded pointer the
claim accepts. -/
theorem c5_is_recoverable_counterexample :
    (verdictNoWorkflowRefs.is_recoverable = true ∧
      ¬ recoverableClaim verdictNoWorkflowRefs) ∧
    (verdictEmptyPointer.is_recoverable = false ∧
      recoverableClaim verdictEmptyPointer) := by
  refine ⟨⟨rfl, ?_⟩, ⟨rfl, ?_⟩⟩
  · unfold recoverableClaim verdictNoWorkflowRefs
    decide
  · unfold recoverableClaim verdictEmptyPointer
    decide

/-- C5 amended: is_recoverable holds iff the verdict is directly
satisfied, or carries a truthy (non-empty) forwarded pointer, or has
arguments and function body present with the object-reference and
workflow lists known; the dynamic workflow reference list is not
consulted. -/
theorem c5_is_recoverable_amended (r : StepInspectResult) :
    r.is_recoverable = true ↔
      (r.output_object_valid = true ∨ r.output_step_id.truthy = true ∨
        (r.args_valid = true ∧ r.object_refs.isNone = false ∧
          r.workflows.isNone = false ∧ r.func_body_valid = true)) := by
  unfold StepInspectResult.is_recoverable
  simp only [Bool.or_eq_true, Bool.and_eq_true, Bool.not_eq_true']
  tauto

/-- The forwarded dynamic-output identifier as the specification words
it: the nested root id for a nested-workflow return, the step itself
otherwise. -/
def forwardedId (step : String) : RetVal → String
  | RetVal.workflow w => w
  | RetVal.objectRef _ => step
  | RetVal.value _ => step

/-- The primary persisted artifact as the specification words it: output
metadata pointing at the nested root for a nested-workflow return (no
concrete value), otherwise the resolved concrete value as the direct
output. -/
def specPersist (st : Store) (wf step : String) : RetVal → Store
  | RetVal.workflow w =>
      putKey st (keyStepOutputMetadata wf step)
        (PyVal.dict [("output_step_id", PyVal.str w)])
  | RetVal.objectRef v => putKey st (keyStepOutput wf step) v
  | RetVal.value v => putKey st (keyStepOutput wf step) v

/-- The shortcut-update trigger as the specification words it: exactly
when outer_most_step_id is neither absent nor the empty root-driver
sentinel. -/
def shortcutTriggered : Option String → Bool
  | Option.none => false
  | some o => o != ""

/-- save_step_output exactly as the specification words it. -/
def saveStepOutputSpec (st : Store) (wf step : String) (ret : RetVal)
    (outer : Option String) : Except Err Store :=
  if shortcutTriggered outer then
    updateDynamicOutput (specPersist st wf step ret) wf (outer.getD "")
      (forwardedId step ret)
  else Except.ok (specPersist st wf step ret)

/-- C9: save_step_output coincides with the specification-worded
behaviour whenever the source assertion (a nested-workflow return never
points at the saving step itself) holds. -/
theorem c9_save_step_output_spec (st : Store) (wf step : String)
    (ret : RetVal) (outer : Option String)
    (h : ∀ w, ret = RetVal.workflow w → step ≠ w) :
    saveStepOutput st wf step ret outer =
      saveStepOutputSpec st wf step ret outer := by
  cases ret with
  | workflow w =>
      have hne : step ≠ w := h w rfl
      cases outer with
      | none =>
          simp [saveStepOutput, saveStepOutputSpec, specPersist, forwardedId,
            runShortcut, shortcutTriggered, hne]
      | some o =>
          by_cases ho : o = ""
          · subst ho
            simp [saveStepOutput, saveStepOutputSpec, specPersist, forwardedId,
              runShortcut, shortcutTriggered, hne]
          · simp [saveStepOutput, saveStepOutputSpec, specPersist, forwardedId,
              runShortcut, shortcutTriggered, hne, ho]
  | objectRef v =>
      cases outer with
      | none =>
          simp [saveStepOutput, saveStepOutputSpec, specPersist, forwardedId,
            runShortcut, shortcutTriggered]
      | some o =>
          by_cases ho : o = ""
          · subst ho
            simp [saveStepOutput, saveStepOutputSpec, specPersist, forwardedId,
              runShortcut, shortcutTriggered]
          · simp [saveStepOutput, saveStepOutputSpec, specPersist, forwardedId,
              runShortcut, shortcutTriggered, ho]
  | value v =>
      cases outer with
      | none =>
          simp [saveStepOutput, saveStepOutputSpec, specPersist, forwardedId,
            runShortcut, shortcutTriggered]
      | some o =>
          by_cases ho : o = ""
          · subst ho
            simp [saveStepOutput, saveStepOutputSpec, specPersist, forwardedId,
              runShortcut, shortcutTriggered]
          · simp [saveStepOutput, saveStepOutputSpec, specPersist, forwardedId,
              runShortcut, shortcutTriggered, ho]

/-- A store holding output metadata for the outer-most step o pointing
at step s. -/
def outerPointerStore : Store :=
  [(["w", "steps", "o", "outputs.json"],
    PyVal.dict [("output_step_id", PyVal.str "s")])]

/-- C9 witness: step s returns a nested workflow n with outer-most step
o; the metadata for s is written, the shortcut update advances the
pointer of o to n, and the spec-worded function agrees. -/
theorem c9_save_step_output_spec_witness :
    saveStepOutput outerPointerStore "w" "s" (RetVal.workflow "n")
        (some "o") =
      saveStepOutputSpec outerPointerStore "w" "s" (RetVal.workflow "n")
        (some "o") ∧
    saveStepOutput outerPointerStore "w" "s" (RetVal.workflow "n")
        (some "o") =
      Except.ok
        [(["w", "steps", "o", "outputs.json"],
          PyVal.dict [("output_step_id", PyVal.str "s"),
                      ("dynamic_output_step_id", PyVal.str "n")]),
         (["w", "steps", "s", "outputs.json"],
          PyVal.dict [("output_step_id", PyVal.str "n")])] :=
  ⟨c9_save_step_output_spec outerPointerStore "w" "s" (RetVal.workflow "n")
     (some "o") (fun w hw => by cases hw; decide), rfl⟩

theorem inputMetadataVerdict_ok_step_type (st : Store) (wf sid : String)
    (aE fE : Bool) (r : StepInspectResult)
    (h : inputMetadataVerdict st wf sid aE fE = Except.ok r)
    (m t : PyVal)
    (hg : getKey st (keyStepInputMetadata wf sid) = Except.ok m)
    (ht : m.getOpt "step_type" = Except.ok t) :
    ∃ s, StepType.ofName t = Except.ok s := by
  unfold inputMetadataVerdict at h
  rw [hg] at h
  dsimp only at h
  cases h1 : m.getItem "object_refs" with
  | error e => rw [h1] at h; simp at h
  | ok orefs =>
    rw [h1] at h
    dsimp only at h
    cases h2 : m.getItem "workflows" with
    | error e => rw [h2] at h; simp at h
    | ok wfs =>
      rw [h2] at h
      dsimp only at h
      cases h3 : m.getItem "workflow_refs" with
      | error e => rw [h3] at h; simp at h
      | ok wrefs =>
        rw [h3] at h
        dsimp only at h
        cases h4 : m.getOpt "max_retries" with
        | error e => rw [h4] at h; simp at h
        | ok mr =>
          rw [h4] at h
          dsimp only at h
          cases h5 : m.getOpt "catch_exceptions" with
          | error e => rw [h5] at h; simp at h
          | ok ce =>
            rw [h5] at h
            dsimp only at h
            cases h6 : m.getOptD "ray_options" (PyVal.dict []) with
            | error e => rw [h6] at h; simp at h
            | ok ro =>
              rw [h6] at h
              dsimp only at h
              rw [ht] at h
              dsimp only at h
              cases h7 : StepType.ofName t with
              | error e => rw [h7] at h; simp at h
              | ok s => exact ⟨s, rfl⟩

/-- C2 amended: a step with no output artifact and no output metadata
whose input metadata is present but carries a step-type tag outside the
enumeration yields the reduced verdict (only the args and function-body
existence flags), not a terminal load failure. -/
theorem c2_unknown_step_type_amended (st : Store) (wf sid : String)
    (m t : PyVal)
    (hwf : wf ≠ "") (hsid : sid ≠ "") (hflat : stepDirFlat st wf sid)
    (hout : lookupStore st (keyStepOutput wf sid) = Option.none)
    (hmeta : lookupStore st (keyStepOutputMetadata wf sid) = Option.none)
    (hin : getKey st (keyStepInputMetadata wf sid) = Except.ok m)
    (ht : m.getOpt "step_type" = Except.ok t)
    (he : StepType.ofName t = Except.error Err.keyError) :
    inspectStep st wf sid = Except.ok
      { args_valid := (lookupStore st (keyStepArgs wf sid)).isSome,
        func_body_valid := (lookupStore st (keyStepFunctionBody wf sid)).isSome } := by
  have hpre : keyStepPre wf sid = [wf, STEPS_DIR, sid] :=
    keyStepPre_eq wf sid hwf hsid
  have hd : ∀ kv ∈ st,
      (kv.fst).take ([wf, STEPS_DIR, sid] : Key).length = [wf, STEPS_DIR, sid] →
      (kv.fst).length ≤ ([wf, STEPS_DIR, sid] : Key).length + 1 := hflat
  have hcout : (childNames st (keyStepPre wf sid)).contains STEP_OUTPUT = false := by
    rw [hpre, contains_childNames_eq st [wf, STEPS_DIR, sid] STEP_OUTPUT hd]
    simp only [List.cons_append, List.nil_append]
    rw [← keyStepOutput_eq wf sid hwf hsid, hout]
    rfl
  have hcmeta : (childNames st (keyStepPre wf sid)).contains
      STEP_OUTPUTS_METADATA = false := by
    rw [hpre, contains_childNames_eq st [wf, STEPS_DIR, sid] STEP_OUTPUTS_METADATA hd]
    simp only [List.cons_append, List.nil_append]
    rw [← keyStepOutputMetadata_eq wf sid hwf hsid, hmeta]
    rfl
  have hcargs : (childNames st (keyStepPre wf sid)).contains STEP_ARGS =
      (lookupStore st (keyStepArgs wf sid)).isSome := by
    rw [hpre, keyStepArgs_eq wf sid hwf hsid]
    exact contains_childNames_eq st [wf, STEPS_DIR, sid] STEP_ARGS hd
  have hcfunc : (childNames st (keyStepPre wf sid)).contains STEP_FUNC_BODY =
      (lookupStore st (keyStepFunctionBody wf sid)).isSome := by
    rw [hpre, keyStepFunctionBody_eq wf sid hwf hsid]
    exact contains_childNames_eq st [wf, STEPS_DIR, sid] STEP_FUNC_BODY hd
  unfold inspectStep
  dsimp only
  rw [hcout, hcmeta, hcargs, hcfunc]
  simp only [Bool.false_eq_true, if_false]
  unfold readInputMetadata
  cases hv : inputMetadataVerdict st wf sid
      (lookupStore st (keyStepArgs wf sid)).isSome
      (lookupStore st (keyStepFunctionBody wf sid)).isSome with
  | error e => rfl
  | ok r =>
      exfalso
      obtain ⟨s, hs⟩ := inputMetadataVerdict_ok_step_type st wf sid _ _ r hv m t hin ht
      rw [hs] at he
      exact absurd he (by simp)

/-- A step with an unknown step-type tag, an arguments artifact, no
function-body artifact, and no output artifacts. -/
def mysteryTagStore : Store :=
  [(["w", "steps", "s", "inputs.json"],
    PyVal.dict [("object_refs", PyVal.list []), ("workflows", PyVal.list []),
                ("workflow_refs", PyVal.list []),
                ("step_type", PyVal.str "MYSTERY")]),
   (["w", "steps", "s", "args.pkl"], PyVal.str "blob")]

/-- C2 amended-theorem witness: the reduced verdict at a concrete store
with an unknown step-type tag. -/
theorem c2_unknown_step_type_amended_witness :
    inspectStep mysteryTagStore "w" "s" = Except.ok
      { args_valid := (lookupStore mysteryTagStore (keyStepArgs "w" "s")).isSome,
        func_body_valid :=
          (lookupStore mysteryTagStore (keyStepFunctionBody "w" "s")).isSome } :=
  c2_unknown_step_type_amended mysteryTagStore "w" "s"
    (PyVal.dict [("object_refs", PyVal.list []), ("workflows", PyVal.list []),
                 ("workflow_refs", PyVal.list []),
                 ("step_type", PyVal.str "MYSTERY")])
    (PyVal.str "MYSTERY") (by decide) (by decide)
    (by unfold stepDirFlat; decide) rfl rfl rfl rfl rfl
